import Mathlib

/-!
# Verification of the iris real-time overlay synchronization engine

Shallow embedding of the browser-extension client of the iris repository:
the mutation-observer driven pipeline in
`browser-extension/src/js/content.js` (classes `DataManager`,
`ProductOverlayManager`, and the second-generation `OverlayManager`),
the background request cache in `browser-extension/src/js/background.js`,
the rendering helpers in `browser-extension/src/js/uiComponents.js`, and
the `browser-extension2` variant.

Modelling conventions:
* JavaScript numbers are modelled by `ℚ` (all arithmetic the code performs
  on coordinates and box sizes is exact on the inputs considered).
* A JS `Map` is an association list with set-or-replace update; a JS `Set`
  is a duplicate-free list with guarded insertion.
* `async` functions are split at their `await` points into explicit steps;
  network responses are delivered by a separate step, so every interleaving
  of the single-threaded event loop can be replayed.  The microtask hop
  after an already-cached `await` is collapsed into the issuing step, which
  no claim distinguishes.
* Dynamic JS objects carrying optional fields (`masks`, `detections`,
  `error`) become structures with `Option` fields; reading `.length` of an
  absent field is a thrown `TypeError`, modelled by `Except.error`.
* The carousel visibility adapter (`setupSlideObserver`/`cleanupSlide`) is
  outside every claim considered here and is not modelled.
-/

namespace Iris

/-! ## Data model -/

/-- A normalized detection point, `point: {x, y}` in the backend payload. -/
structure Point where
  x : ℚ
  y : ℚ
deriving DecidableEq, Repr

/-- One entry of the legacy `masks` payload used by the `check-url`
pipeline: only the fields the overlay code reads are retained. -/
structure Mask where
  point : Option Point
  product_url : Option String
deriving DecidableEq, Repr

/-- One entry of the `detections` payload used by the
`get-detections-all-predictions` pipeline. -/
structure Detection where
  point : Point
  product_predictions : List String
deriving DecidableEq, Repr

/-- A lookup result as the dynamic JS object the client passes around.
Fields that a given backend variant or code path may omit are `Option`;
`none` models an absent (`undefined`) field. -/
structure LookupResult where
  exists_ : Bool
  hasProductMasks : Option Bool := none
  masks : Option (List Mask) := none
  detections : Option (List Detection) := none
  error : Option String := none
deriving DecidableEq, Repr

/-- The object synthesized by `processImage`'s catch branch:
`\x7b exists: false, error: error.message \x7d`.  Note that it carries
neither a `masks` nor a `detections` field. -/
def failureResult (msg : String) : LookupResult :=
  { exists_ := false, error := some msg }

/-! ## DOM model

Only the queries the engine performs on the live tree are represented: an
image element carries its `src`, its rendered and natural boxes, and the
chain of its ancestors (nearest first) with the facts the engine inspects
about each. -/

/-- What the engine can observe about one ancestor of an image element. -/
structure AncestorInfo where
  aid : Nat
  displayContents : Bool
  figureTag : Bool
  rectW : ℚ
  rectH : ℚ
deriving DecidableEq, Repr

/-- An image element as seen by the engine.  `src = none` models an absent
attribute.  `ancestors` lists the ancestor chain starting at
`parentElement`; for a node detached inside a removed subtree the chain is
the detached one, for a node removed directly it is empty. -/
structure ImgElement where
  id : Nat
  src : Option String
  rectW : ℚ
  rectH : ℚ
  naturalW : ℚ
  naturalH : ℚ
  ancestors : List AncestorInfo
deriving DecidableEq, Repr

/-- The DOM `src` property: an absent attribute reads as the empty
string. -/
def srcProp : Option String → String
  | none => ""
  | some s => s

/-- The scheme prefix of an inline data URI. -/
def dataPrefix : String :=
  "data:"

/-- `String.startsWith` on the character-list model of strings (the
core-library version is irreducible in the kernel). -/
def strStartsWith (s p : String) : Bool :=
  p.data.isPrefixOf s.data

/-- `String.isEmpty` on the character-list model. -/
def strIsEmpty (s : String) : Bool :=
  s.data.isEmpty

/-- `imgElement.parentElement`. -/
def parentInfo (el : ImgElement) : Option AncestorInfo :=
  el.ancestors.head?

/-- `imgElement.closest('figure')` (an `IMG` never matches itself). -/
def closestFigureInfo (el : ImgElement) : Option AncestorInfo :=
  el.ancestors.find? (·.figureTag)

/-- `imgElement.closest('figure') || imgElement.parentElement`, the
container chosen by `ProductOverlayManager.createOrUpdateOverlay`. -/
def containerInfoA (el : ImgElement) : Option AncestorInfo :=
  (closestFigureInfo el).orElse fun _ => parentInfo el

/-- `getFirstParentWithBox`: walk up past `display: contents` wrappers. -/
def containerInfoB (el : ImgElement) : Option AncestorInfo :=
  el.ancestors.find? (fun a => !a.displayContents)

/-! ## Lookup client -/

/-- The URL → result cache (`DataManager.cache`, a JS `Map`). -/
abbrev Cache := List (String × LookupResult)

def cacheGet : Cache → String → Option LookupResult
  | [], _ => none
  | e :: t, url => if e.1 = url then some e.2 else cacheGet t url

/-- `Map.set`: replace the value under an existing key, else append. -/
def cacheSet : Cache → String → LookupResult → Cache
  | [], url, r => [(url, r)]
  | e :: t, url, r =>
      if e.1 = url then (url, r) :: t else e :: cacheSet t url r

/-- A network oracle: what one `fetch` of the detection endpoint for a
given URL would produce.  `Except.error` covers a network error, a
non-success HTTP status (the code throws on `!response.ok`) and a
malformed body (`response.json()` throwing). -/
abbrev NetOracle := String → Except String LookupResult

/-- `DataManager.checkImage` (`content.js` lines 19–45): returns the new
cache, the outcome (`Except.error` = the function throwing), and whether a
network request was issued.  On failure the error is rethrown and the
cache is left untouched. -/
def checkImage (net : NetOracle) (cache : Cache) (url : String) :
    Cache × Except String LookupResult × Bool :=
  match cacheGet cache url with
  | some r => (cache, Except.ok r, false)
  | none =>
    match net url with
    | Except.ok data => (cacheSet cache url data, Except.ok data, true)
    | Except.error e => (cache, Except.error e, true)

/-- The failure response synthesized and cached by the `background.js`
message listener: `error`, `exists: false`, `hasProductMasks: false`,
`masks: []`. -/
def backgroundFailure (msg : String) : LookupResult :=
  { exists_ := false, hasProductMasks := some false, masks := some [],
    error := some msg }

/-- The normalization `background.js`'s `checkImage` applies to a
successful payload (`masks: data.masks || []`, `error: null`). -/
def backgroundNormalize (data : LookupResult) : LookupResult :=
  { exists_ := data.exists_, hasProductMasks := data.hasProductMasks,
    masks := some (data.masks.getD []), error := none }

/-- The `chrome.runtime.onMessage` listener of `background.js`
(lines 7–37): unlike `DataManager.checkImage` it never throws, and it
caches the synthesized failure response. -/
def backgroundCheckImage (net : NetOracle) (cache : Cache) (url : String) :
    Cache × LookupResult × Bool :=
  match cacheGet cache url with
  | some r => (cache, r, false)
  | none =>
    match net url with
    | Except.ok data =>
        let r := backgroundNormalize data
        (cacheSet cache url r, r, true)
    | Except.error e =>
        let r := backgroundFailure e
        (cacheSet cache url r, r, true)

/-! ## Overlay lifecycle state

One overlay element: its identity (`oid`, fresh per creation), the image
element it is bound to, the container it was appended to, the watermark
the legacy `UIComponents.createOverlay(data)` renders, the `no-products`
marker class of the second-generation variant, the rendered product link
positions (left/top as CSS percentages), and the geometry the
second-generation variant sets inline. -/
structure Overlay where
  oid : Nat
  boundTo : Nat
  container : Nat
  watermark : Option String := none
  noProducts : Bool := false
  links : List (ℚ × ℚ) := []
  left : ℚ := 0
  top : ℚ := 0
  width : ℚ := 0
  height : ℚ := 0
deriving DecidableEq, Repr

/-- The manager's element → overlay `Map` plus the overlay elements
currently attached to the document. -/
structure ManagerState where
  overlays : List (Nat × Nat)
  dom : List Overlay
  nextOid : Nat
deriving DecidableEq, Repr

def mapGet : List (Nat × Nat) → Nat → Option Nat
  | [], _ => none
  | e :: t, k => if e.1 = k then some e.2 else mapGet t k

def mapSet : List (Nat × Nat) → Nat → Nat → List (Nat × Nat)
  | [], k, v => [(k, v)]
  | e :: t, k, v => if e.1 = k then (k, v) :: t else e :: mapSet t k v

/-- The overlay elements currently in the document that are bound to a
given image element. -/
def domFor (s : ManagerState) (elId : Nat) : List Overlay :=
  s.dom.filter (fun o => o.boundTo = elId)

/-- The binding/DOM agreement the manager maintains for one element: the
overlay elements in the document bound to it are exactly the one its map
entry points at (none, when it has no map entry). -/
def consistentAt (s : ManagerState) (e : Nat) : Prop :=
  match mapGet s.overlays e with
  | some oid => (domFor s e).map (·.oid) = [oid]
  | none => domFor s e = []

/-- `ProductOverlayManager.cleanupImage` (lines 240–245): if the map has a
binding for the element, call `.remove()` on the bound overlay element and
delete the binding.  `OverlayManager.removeOverlay` has the same body. -/
def cleanupImage (s : ManagerState) (elId : Nat) : ManagerState :=
  match mapGet s.overlays elId with
  | some oid =>
      { s with
        dom := s.dom.filter (fun o => !(o.oid = oid)),
        overlays := s.overlays.filter (fun e => !(e.1 = elId)) }
  | none => s

/-- `cleanupNode` restricted to images (lines 230–238): an `IMG` node is
cleaned directly; for any other element every contained image
(`querySelectorAll('img')`) is cleaned. -/
def cleanupImages (s : ManagerState) (ids : List Nat) : ManagerState :=
  ids.foldl cleanupImage s

/-- The watermark of the legacy `UIComponents.createOverlay(data)`. -/
def watermarkText (data : LookupResult) : String :=
  if !data.exists_ then "not found"
  else if !(data.hasProductMasks.getD false) then "iris"
  else "iris - has_products"

/-- Product link position of the standalone `uiComponents.js`
`createProductLink` (lines 8–23): the normalized point consumed as
fractions, `left = point.x * 100%`, `top = point.y * 100%`. -/
def createProductLinkPos (p : Point) : ℚ × ℚ :=
  (p.x * 100, p.y * 100)

/-- Product link position of the `UIComponents.createProductLink` inlined
in `browser-extension/src/js/content.js` (lines 76–94): the point is
divided by the container's `getBoundingClientRect()` box. -/
def inlineLinkPos (p : Point) (cw ch : ℚ) : ℚ × ℚ :=
  (p.x / cw * 100, p.y / ch * 100)

/-- Product link position of the `browser-extension2` `createOverlay`
(lines 155–156): the point is divided by the image's natural size. -/
def naturalLinkPos (p : Point) (nw nh : ℚ) : ℚ × ℚ :=
  (p.x / nw * 100, p.y / nh * 100)

/-- The links `createOrUpdateOverlay` renders: one per mask that has both
a `point` and a `product_url`, positioned by the inline formula against
the container's box; nothing when `data.masks?.length` is falsy. -/
def overlayLinksA (data : LookupResult) (cw ch : ℚ) : List (ℚ × ℚ) :=
  match data.masks with
  | some ms =>
      ms.filterMap fun m =>
        match m.point, m.product_url with
        | some p, some _ => some (inlineLinkPos p cw ch)
        | _, _ => none
  | none => []

/-- `ProductOverlayManager.createOrUpdateOverlay` (lines 278–302):
choose `closest('figure') || parentElement` as container (return if
none), remove any existing overlay for the element first, build the
overlay with its watermark and mask links, append it to the container and
record the binding. -/
def createOrUpdateOverlay (s : ManagerState) (el : ImgElement)
    (data : LookupResult) : ManagerState :=
  match containerInfoA el with
  | none => s
  | some c =>
      let s1 := cleanupImage s el.id
      let ov : Overlay :=
        { oid := s1.nextOid, boundTo := el.id, container := c.aid,
          watermark := some (watermarkText data),
          links := overlayLinksA data c.rectW c.rectH }
      { s1 with
        dom := s1.dom ++ [ov],
        overlays := mapSet s1.overlays el.id s1.nextOid,
        nextOid := s1.nextOid + 1 }

/-- The message a JS engine raises for `data.detections.length` when the
`detections` field is absent. -/
def detectionsUndefined : String :=
  "TypeError: data.detections is undefined"

/-- `OverlayManager.createOverlay` (second-generation variant, lines
511–543 of the concatenated `content.js`): skip if a binding already
exists, choose the first parent with a box, size the overlay to the
image, add the `no-products` class when `detections` is empty, and render
one link per detection via the standalone `UIComponents.createProductLink`.
Reading `data.detections.length` of a result without a `detections` field
throws. -/
def createOverlayB (s : ManagerState) (el : ImgElement)
    (data : LookupResult) : Except String ManagerState :=
  if (mapGet s.overlays el.id).isSome then Except.ok s
  else
    match containerInfoB el with
    | none => Except.ok s
    | some c =>
        match data.detections with
        | none => Except.error detectionsUndefined
        | some dets =>
            let ov : Overlay :=
              { oid := s.nextOid, boundTo := el.id, container := c.aid,
                noProducts := dets.isEmpty,
                links := dets.map (fun d => createProductLinkPos d.point),
                width := el.rectW, height := el.rectH }
            Except.ok
              { s with
                dom := s.dom ++ [ov],
                overlays := mapSet s.overlays el.id s.nextOid,
                nextOid := s.nextOid + 1 }

/-! ## Validity checks -/

/-- `ProductOverlayManager.isValidImage` (lines 274–276) and the identical
`browser-extension2` check (lines 104–106): only the `src` is consulted —
truthy and not a `data:` URI. -/
def isValidImage (el : ImgElement) : Bool :=
  let s := srcProp el.src
  !strIsEmpty s && !strStartsWith s dataPrefix

/-- The sized check of the second-generation `OverlayManager.isValidImage`
(lines 469–474): additionally both rendered dimensions must reach the
fixed 256-pixel floor. -/
def isValidImageSized (el : ImgElement) : Bool :=
  isValidImage el && decide (256 ≤ min el.rectW el.rectH)

/-! ## Engine of the `ProductOverlayManager` pipeline

`processImage` is an `async` function; it is split at its single `await`:
`processImageStep` is the synchronous prefix (validity check, in-flight
dedup, `processingUrls.add`, the cache probe of `checkImage`, and — when
the URL is cached — the whole continuation), and `settleResponse` is the
continuation that runs when a network response for a pending request
arrives (success and catch branches, plus the `finally`). -/

/-- A network request that has been issued but not yet answered. -/
structure PendingReq where
  el : ImgElement
  url : String
deriving DecidableEq, Repr

structure EngineState where
  mgr : ManagerState
  cache : Cache
  processingUrls : List String
  requestLog : List String
  pendingReqs : List PendingReq
  pending : List ImgElement
  timer : Option Nat
  nextTimer : Nat
deriving DecidableEq, Repr

/-- Insertion into a JS `Set` (append only if absent). -/
def setInsert (l : List ImgElement) (x : ImgElement) : List ImgElement :=
  if x ∈ l then l else l ++ [x]

/-- The synchronous prefix of `ProductOverlayManager.processImage`
(lines 258–272): invalid images and in-flight URLs return at once; a
cached URL resolves without a network request and the continuation
(`createOrUpdateOverlay` plus the `finally`) runs; otherwise the URL is
marked in flight and one request is issued. -/
def processImageStep (s : EngineState) (el : ImgElement) : EngineState :=
  if !isValidImage el then s
  else
    let url := srcProp el.src
    if url ∈ s.processingUrls then s
    else
      let s1 := { s with processingUrls := s.processingUrls ++ [url] }
      match cacheGet s1.cache url with
      | some data =>
          { s1 with
            mgr := createOrUpdateOverlay s1.mgr el data,
            processingUrls := s1.processingUrls.filter (fun u => !(u = url)) }
      | none =>
          { s1 with
            requestLog := s1.requestLog ++ [url],
            pendingReqs := s1.pendingReqs ++ [⟨el, url⟩] }

/-- Delivery of the network response for a pending request: on success
`checkImage` caches the payload and `createOrUpdateOverlay` runs; on
failure the catch branch passes the synthesized `failureResult` to
`createOrUpdateOverlay` and nothing is cached; the `finally` clears the
in-flight marker either way. -/
def settleResponse (s : EngineState) (pr : PendingReq)
    (resp : Except String LookupResult) : EngineState :=
  if pr ∈ s.pendingReqs then
    let s1 := { s with pendingReqs := s.pendingReqs.erase pr }
    match resp with
    | Except.ok data =>
        { s1 with
          cache := cacheSet s1.cache pr.url data,
          mgr := createOrUpdateOverlay s1.mgr pr.el data,
          processingUrls := s1.processingUrls.filter (fun u => !(u = pr.url)) }
    | Except.error e =>
        { s1 with
          mgr := createOrUpdateOverlay s1.mgr pr.el (failureResult e),
          processingUrls := s1.processingUrls.filter (fun u => !(u = pr.url)) }
  else s

/-! ## Change watcher and debounced batch scheduler -/

/-- A node appearing in a mutation record: an image element, some other
element (of which the engine only sees `querySelectorAll('img')`), or a
non-element node. -/
inductive DomNode where
  | img (el : ImgElement)
  | elem (imgs : List ImgElement)
  | other
deriving DecidableEq, Repr

/-- A mutation record, restricted to the two kinds the observer is
registered for (`childList` on the subtree, `attributes` filtered to
`src`/`srcset`). -/
inductive MutationRecord where
  | childList (added removed : List DomNode)
  | attr (attrName : String) (target : DomNode)
deriving DecidableEq, Repr

def srcAttr : String :=
  "src"

def srcsetAttr : String :=
  "srcset"

/-- `isImageNode` applied to an added node (lines 215–222): a direct `IMG`
is reported for batching, while images nested in an added element subtree
are **processed immediately** by the side effect inside `isImageNode`, and
the node itself is not batched. -/
def addedNodeStep (sb : EngineState × Bool) (n : DomNode) :
    EngineState × Bool :=
  match n with
  | DomNode.img el => ({ sb.1 with pending := setInsert sb.1.pending el }, true)
  | DomNode.elem imgs => (imgs.foldl processImageStep sb.1, sb.2)
  | DomNode.other => sb

/-- `cleanupNode` for a removed node (run synchronously in the observer
callback): clean a removed `IMG` and every image inside a removed element
subtree. -/
def removedNodeStep (s : EngineState) (n : DomNode) : EngineState :=
  match n with
  | DomNode.img el => { s with mgr := cleanupImage s.mgr el.id }
  | DomNode.elem imgs =>
      { s with mgr := cleanupImages s.mgr (imgs.map (·.id)) }
  | DomNode.other => s

/-- One mutation record inside the observer callback of
`ProductOverlayManager.setupMutationObserver` (lines 174–196): added
nodes feed `isImageNode`, removed element nodes are cleaned up
synchronously, and an `src`/`srcset` change on an `IMG` is batched. -/
def mutationStep (sb : EngineState × Bool) (m : MutationRecord) :
    EngineState × Bool :=
  match m with
  | MutationRecord.childList added removed =>
      let sb1 := added.foldl addedNodeStep sb
      (removed.foldl removedNodeStep sb1.1, sb1.2)
  | MutationRecord.attr name target =>
      match target with
      | DomNode.img el =>
          if name = srcAttr ∨ name = srcsetAttr then
            ({ sb.1 with pending := setInsert sb.1.pending el }, true)
          else sb
      | _ => sb

/-- The whole observer callback (lines 174–205): process every record,
then — if any candidate was seen — clear the running debounce timeout and
start a fresh one (`clearTimeout` + `setTimeout`). -/
def observeA (s : EngineState) (muts : List MutationRecord) : EngineState :=
  let sb := muts.foldl mutationStep (s, false)
  if sb.2 then
    { sb.1 with timer := some sb.1.nextTimer, nextTimer := sb.1.nextTimer + 1 }
  else sb.1

/-- Expiry of the live debounce timeout (lines 200–203): process every
pending image in one pass and clear the pending set.  A cleared timeout
never fires, so a state without a live timer flushes nothing. -/
def flushA (s : EngineState) : EngineState :=
  match s.timer with
  | none => s
  | some _ =>
      let s1 := s.pending.foldl processImageStep { s with timer := none }
      { s1 with pending := [] }

/-- A burst of observer callbacks each of which only adds direct `IMG`
nodes (the shape of the debounce-coalescing scenario of the spec). -/
def directImgBatch (imgs : List ImgElement) : List MutationRecord :=
  [MutationRecord.childList (imgs.map DomNode.img) []]

def burstA (s : EngineState) (batches : List (List ImgElement)) : EngineState :=
  batches.foldl (fun t b => observeA t (directImgBatch b)) s

/-! ## Engine of the second-generation `OverlayManager` pipeline

Its observer callback (lines 388–414) does **no work synchronously**: it
clears any running 500 ms timeout and schedules a fresh one whose closure
captures the current `mutations` array, so the records of a superseded
callback are dropped and even removals wait for the debounce. -/

structure EngineStateB where
  mgr : ManagerState
  cache : Cache
  processingUrls : List String
  requestLog : List String
  pendingReqs : List PendingReq
  storedMutations : Option (List MutationRecord)
deriving DecidableEq, Repr

/-- The observer callback of `OverlayManager.setupMutationObserver`: only
`clearTimeout` plus a new `setTimeout` capturing these records. -/
def observeB (s : EngineStateB) (muts : List MutationRecord) : EngineStateB :=
  { s with storedMutations := some muts }

/-- The synchronous prefix of the second-generation `processImage`
(lines 454–467) with its sized validity check. -/
def processImageStepB (s : EngineStateB) (el : ImgElement) : EngineStateB :=
  if !isValidImageSized el then s
  else
    let url := srcProp el.src
    let s1 := { s with processingUrls := s.processingUrls ++ [url] }
    match cacheGet s1.cache url with
    | some data =>
        match createOverlayB s1.mgr el data with
        | Except.ok m =>
            { s1 with
              mgr := m,
              processingUrls := s1.processingUrls.filter (fun u => !(u = url)) }
        | Except.error _ =>
            { s1 with
              processingUrls := s1.processingUrls.filter (fun u => !(u = url)) }
    | none =>
        { s1 with
          requestLog := s1.requestLog ++ [url],
          pendingReqs := s1.pendingReqs ++ [⟨el, url⟩] }

/-! ## Concrete fixtures

A small host page: two large images sharing one source URL (each inside
its own plain `div`), one thumbnail-sized image, and one image with no
`src` attribute. -/

def urlA : String :=
  "https://shop.example/a.jpg"

def urlB : String :=
  "https://shop.example/b.jpg"

def urlP : String :=
  "https://shop.example/products/1"

def httpFailMsg : String :=
  "HTTP error! status: 500"

def ancDiv10 : AncestorInfo :=
  { aid := 10, displayContents := false, figureTag := false,
    rectW := 800, rectH := 600 }

def ancDiv11 : AncestorInfo :=
  { aid := 11, displayContents := false, figureTag := false,
    rectW := 800, rectH := 600 }

def ancDiv12 : AncestorInfo :=
  { aid := 12, displayContents := false, figureTag := false,
    rectW := 100, rectH := 100 }

def imgOne : ImgElement :=
  { id := 1, src := some urlA, rectW := 800, rectH := 600,
    naturalW := 800, naturalH := 600, ancestors := [ancDiv10] }

def imgTwo : ImgElement :=
  { id := 2, src := some urlA, rectW := 800, rectH := 600,
    naturalW := 800, naturalH := 600, ancestors := [ancDiv11] }

def imgSmall : ImgElement :=
  { id := 3, src := some urlB, rectW := 100, rectH := 100,
    naturalW := 100, naturalH := 100, ancestors := [ancDiv12] }

def imgNoSrc : ImgElement :=
  { id := 4, src := none, rectW := 800, rectH := 600,
    naturalW := 800, naturalH := 600, ancestors := [ancDiv10] }

/-- A detached image: removed directly from its parent, so its ancestor
chain is empty. -/
def imgDetached : ImgElement :=
  { id := 5, src := some urlB, rectW := 800, rectH := 600,
    naturalW := 800, naturalH := 600, ancestors := [] }

def maskMid : Mask :=
  { point := some { x := 1/2, y := 1/4 }, product_url := some urlP }

def okMasksResult : LookupResult :=
  { exists_ := true, hasProductMasks := some true, masks := some [maskMid] }

def detMid : Detection :=
  { point := { x := 1/2, y := 1/4 }, product_predictions := [urlP] }

def okDetsResult : LookupResult :=
  { exists_ := true, detections := some [detMid] }

def emptyDetsResult : LookupResult :=
  { exists_ := true, detections := some [] }

def mgr0 : ManagerState :=
  { overlays := [], dom := [], nextOid := 0 }

def engine0 : EngineState :=
  { mgr := mgr0, cache := [], processingUrls := [], requestLog := [],
    pendingReqs := [], pending := [], timer := none, nextTimer := 0 }

def bengine0 : EngineStateB :=
  { mgr := mgr0, cache := [], processingUrls := [], requestLog := [],
    pendingReqs := [], storedMutations := none }

/-- A backend that always fails (network error or 500 status). -/
def netFail : NetOracle :=
  fun _ => Except.error httpFailMsg

/-- The C1 race replayed: `processImage(imgOne)` issues the one request;
`processImage(imgTwo)` for the same URL arrives while it is in flight;
then the response is delivered. -/
def c1run : EngineState :=
  settleResponse (processImageStep (processImageStep engine0 imgOne) imgTwo)
    ⟨imgOne, urlA⟩ (Except.ok okMasksResult)

/-- The C4 race replayed: `processImage(imgOne)` issues a request; the
subtree holding `imgOne` is removed and the observer reacts; then the
stale response arrives. -/
def c4run : EngineState :=
  settleResponse
    (observeA (processImageStep engine0 imgOne)
      [MutationRecord.childList [] [DomNode.elem [imgOne]]])
    ⟨imgOne, urlA⟩ (Except.ok okMasksResult)

/-- The C6 run: the 100×100 image is processed by the
`ProductOverlayManager` pipeline and its lookup succeeds. -/
def c6run : EngineState :=
  settleResponse (processImageStep engine0 imgSmall)
    ⟨imgSmall, urlB⟩ (Except.ok okMasksResult)

/-- The C8 run: one observer callback whose only record adds a `div`
subtree containing `imgOne`. -/
def c8run : EngineState :=
  observeA engine0 [MutationRecord.childList [DomNode.elem [imgOne]] []]

/-- First `createOverlay` of the second-generation manager for `imgOne`. -/
def bFirst : ManagerState :=
  match createOverlayB mgr0 imgOne okDetsResult with
  | Except.ok m => m
  | Except.error _ => mgr0

/-- Second-generation `createOverlay` on an empty detection sequence. -/
def bEmpty : ManagerState :=
  match createOverlayB mgr0 imgOne emptyDetsResult with
  | Except.ok m => m
  | Except.error _ => mgr0

/-- A manager already holding one overlay bound to element 1. -/
def mgrBound : ManagerState :=
  { overlays := [(1, 0)],
    dom := [{ oid := 0, boundTo := 1, container := 10 }],
    nextOid := 1 }

def bengineBound : EngineStateB :=
  { mgr := mgrBound, cache := [], processingUrls := [], requestLog := [],
    pendingReqs := [], storedMutations := none }

/-- A mutation record reporting the removal of `imgOne`. -/
def removalOfOne : MutationRecord :=
  MutationRecord.childList [] [DomNode.img imgOne]

/-- A later, unrelated mutation record. -/
def attrOnTwo : MutationRecord :=
  MutationRecord.attr srcAttr (DomNode.img imgTwo)

/-- An engine state in which a request for `urlA` is in flight. -/
def engineInFlight : EngineState :=
  { engine0 with processingUrls := [urlA] }

/-- A two-callback burst of direct image additions. -/
def burstBatches : List (List ImgElement) :=
  [[imgOne], [imgTwo]]

/-! ## Map and cache lemmas -/

theorem mapGet_mapSet_self (m : List (Nat × Nat)) (k v : Nat) :
    mapGet (mapSet m k v) k = some v := by
  induction m with
  | nil => simp [mapGet, mapSet]
  | cons e t ih =>
      by_cases h : e.1 = k
      · simp [mapSet, h, mapGet]
      · simp [mapSet, h, mapGet, ih]

theorem cacheGet_cacheSet_self (c : Cache) (url : String) (r : LookupResult) :
    cacheGet (cacheSet c url r) url = some r := by
  induction c with
  | nil => simp [cacheGet, cacheSet]
  | cons e t ih =>
      by_cases h : e.1 = url
      · simp [cacheSet, h, cacheGet]
      · simp [cacheSet, h, cacheGet, ih]

theorem mapGet_filterKey (m : List (Nat × Nat)) (k : Nat) :
    mapGet (m.filter fun e => !(e.1 = k)) k = none := by
  induction m with
  | nil => rfl
  | cons e t ih =>
      by_cases h : e.1 = k
      · simp [List.filter_cons, h, ih]
      · simp [List.filter_cons, h, mapGet, ih]

/-! ## Overlay lifecycle lemmas -/

theorem cleanupImage_nextOid (s : ManagerState) (e : Nat) :
    (cleanupImage s e).nextOid = s.nextOid := by
  unfold cleanupImage
  cases mapGet s.overlays e <;> rfl

/-- `cleanupImage` leaves no binding and no attached overlay for the
element, provided the state was consistent for it. -/
theorem cleanupImage_purges (s : ManagerState) (e : Nat) (h : consistentAt s e) :
    mapGet (cleanupImage s e).overlays e = none ∧
    domFor (cleanupImage s e) e = [] := by
  unfold consistentAt at h
  cases hm : mapGet s.overlays e with
  | none =>
      rw [hm] at h
      simp only [cleanupImage, hm]
      exact ⟨trivial, h⟩
  | some oid =>
      rw [hm] at h
      simp only [cleanupImage, hm]
      refine ⟨mapGet_filterKey _ _, ?_⟩
      simp only [domFor] at h ⊢
      rw [List.filter_comm]
      cases hd : s.dom.filter (fun o => o.boundTo = e) with
      | nil => simp
      | cons a l =>
          rw [hd] at h
          simp only [List.map_cons] at h
          have h1 : a.oid = oid := by
            have := congrArg (fun x => x.head?) h
            simpa using this
          have h2 : l = [] := by
            have := congrArg (fun x => x.tail) h
            simp at this
            exact this
          subst h2
          simp [h1]

/-- `createOrUpdateOverlay` on a consistent state binds the element to the
freshly created overlay, which is then the only attached overlay for it,
and preserves consistency. -/
theorem createOrUpdateOverlay_spec (s : ManagerState) (el : ImgElement)
    (data : LookupResult) (c : AncestorInfo)
    (hc : containerInfoA el = some c) (h : consistentAt s el.id) :
    mapGet (createOrUpdateOverlay s el data).overlays el.id = some s.nextOid ∧
    (domFor (createOrUpdateOverlay s el data) el.id).map (·.oid) = [s.nextOid] ∧
    (createOrUpdateOverlay s el data).nextOid = s.nextOid + 1 ∧
    consistentAt (createOrUpdateOverlay s el data) el.id := by
  obtain ⟨hm, hd⟩ := cleanupImage_purges s el.id h
  have hn := cleanupImage_nextOid s el.id
  have key1 : mapGet (createOrUpdateOverlay s el data).overlays el.id
      = some s.nextOid := by
    simp only [createOrUpdateOverlay, hc]
    rw [mapGet_mapSet_self, hn]
  have key2 : (domFor (createOrUpdateOverlay s el data) el.id).map (·.oid)
      = [s.nextOid] := by
    simp only [createOrUpdateOverlay, hc, domFor] at hd ⊢
    rw [List.filter_append, hd]
    simp [hn]
  have key3 : (createOrUpdateOverlay s el data).nextOid = s.nextOid + 1 := by
    simp only [createOrUpdateOverlay, hc]
    rw [hn]
  refine ⟨key1, key2, key3, ?_⟩
  unfold consistentAt
  rw [key1]
  exact key2

/-! ## Scheduler lemmas -/

theorem addedNodeStep_fold (b : List ImgElement) (s : EngineState) (f : Bool) :
    (b.map DomNode.img).foldl addedNodeStep (s, f) =
      ({ s with pending := b.foldl setInsert s.pending }, f || !b.isEmpty) := by
  induction b generalizing s f with
  | nil => simp
  | cons a t ih =>
      simp only [List.map_cons, List.foldl_cons, addedNodeStep]
      rw [ih]
      simp

theorem observeA_direct (s : EngineState) (b : List ImgElement) :
    observeA s (directImgBatch b) =
      if b.isEmpty then s
      else { s with pending := b.foldl setInsert s.pending,
                    timer := some s.nextTimer, nextTimer := s.nextTimer + 1 } := by
  cases b with
  | nil => simp [observeA, directImgBatch, mutationStep, addedNodeStep_fold]
  | cons a t =>
      simp only [observeA, directImgBatch, List.foldl_cons, List.foldl_nil,
        mutationStep, addedNodeStep_fold]
      simp

/-- A burst of direct-image callbacks touches nothing but the pending set
and the timer: no lookup, no cache write, no overlay work happens before
the flush. -/
theorem burst_spec (batches : List (List ImgElement)) (s : EngineState) :
    (burstA s batches).mgr = s.mgr ∧ (burstA s batches).cache = s.cache ∧
    (burstA s batches).requestLog = s.requestLog ∧
    (burstA s batches).processingUrls = s.processingUrls ∧
    (burstA s batches).pendingReqs = s.pendingReqs ∧
    (burstA s batches).pending =
      batches.foldl (fun p b => b.foldl setInsert p) s.pending := by
  induction batches generalizing s with
  | nil => simp [burstA]
  | cons b rest ih =>
      simp only [burstA, List.foldl_cons] at ih ⊢
      rw [observeA_direct]
      by_cases hb : b.isEmpty
      · rw [if_pos hb]
        have hbn : b = [] := List.isEmpty_iff.mp hb
        subst hbn
        exact ih s
      · rw [if_neg hb]
        exact ih _

theorem burst_all_empty (batches : List (List ImgElement)) (s : EngineState)
    (h : ∀ b ∈ batches, b = []) : burstA s batches = s := by
  induction batches generalizing s with
  | nil => rfl
  | cons b rest ih =>
      have hb : b = [] := h b (List.mem_cons_self _ _)
      subst hb
      simp only [burstA, List.foldl_cons]
      rw [observeA_direct]
      simp only [List.isEmpty_nil, if_true]
      exact ih s (fun x hx => h x (List.mem_cons_of_mem _ hx))

/-- A burst containing at least one candidate ends with exactly one live
debounce timeout. -/
theorem burst_timer (batches : List (List ImgElement)) (s : EngineState)
    (h : ∃ b ∈ batches, b ≠ []) :
    ∃ g, (burstA s batches).timer = some g := by
  induction batches generalizing s with
  | nil => simp at h
  | cons b rest ih =>
      by_cases hr : ∃ x ∈ rest, x ≠ []
      · simp only [burstA, List.foldl_cons]
        exact ih _ hr
      · push_neg at hr
        have hb : b ≠ [] := by
          rcases h with ⟨x, hx, hne⟩
          rcases List.mem_cons.mp hx with h1 | h2
          · exact h1 ▸ hne
          · exact absurd (hr x h2) hne
        simp only [burstA, List.foldl_cons]
        have heq : burstA (observeA s (directImgBatch b)) rest
            = observeA s (directImgBatch b) := burst_all_empty _ _ hr
        simp only [burstA] at heq
        rw [heq, observeA_direct]
        rw [if_neg (by simpa [List.isEmpty_iff] using hb)]
        exact ⟨s.nextTimer, rfl⟩

theorem processImageStep_timer (s : EngineState) (el : ImgElement) :
    (processImageStep s el).timer = s.timer := by
  unfold processImageStep
  split
  · rfl
  · dsimp only
    split
    · rfl
    · split <;> rfl

theorem foldl_processImageStep_timer (l : List ImgElement) (s : EngineState) :
    (l.foldl processImageStep s).timer = s.timer := by
  induction l generalizing s with
  | nil => rfl
  | cons a t ih => rw [List.foldl_cons, ih, processImageStep_timer]

/-- Flushing is idempotent: the flush consumes the live timeout, so a
pending set is processed at most once. -/
theorem flushA_idem (s : EngineState) : flushA (flushA s) = flushA s := by
  unfold flushA
  cases h : s.timer with
  | none => simp [h]
  | some g =>
      simp only
      have ht : ((s.pending.foldl processImageStep
          { s with timer := none }).timer) = none := by
        rw [foldl_processImageStep_timer]
      rw [ht]

/-! ## Claim C1 — in-flight deduplication -/

/-- Claim C1, refuted at a concrete input.  The claim states that a
`resolve` call for a URL already in flight issues no second request *and
that the later caller receives the same eventual result as the first*.
Replaying the race (`c1run`): exactly one request is issued and the first
caller's element gets its overlay, but the second caller's element ends
with no binding and no overlay — the in-flight guard of `processImage`
drops the call, it does not share the result. -/
theorem c1_counterexample :
    c1run.requestLog = [urlA] ∧
    (domFor c1run.mgr 1).length = 1 ∧
    mapGet c1run.mgr.overlays 2 = none ∧
    (domFor c1run.mgr 2).length = 0 :=
  ⟨by decide, by decide, by decide, by decide⟩

/-- Claim C1 as amended: while a request for a URL is in flight, a second
`processImage` call for the same URL changes nothing at all — no second
network request is issued, but the later caller is dropped rather than
receiving the first caller's eventual result. -/
theorem c1_amended (s : EngineState) (el : ImgElement)
    (h : srcProp el.src ∈ s.processingUrls) : processImageStep s el = s := by
  cases hv : isValidImage el
  · simp [processImageStep, hv]
  · simp [processImageStep, hv, h]

/-- Witness for `c1_amended` at a concrete in-flight state. -/
theorem c1_witness :
    srcProp imgTwo.src ∈ engineInFlight.processingUrls ∧
    processImageStep engineInFlight imgTwo = engineInFlight :=
  ⟨by decide, c1_amended engineInFlight imgTwo (by decide)⟩

/-! ## Claim C2 — failure caching -/

/-- Claim C2, refuted at a concrete input.  After a failed lookup of
`urlA` the `DataManager` cache is still empty, and a second `checkImage`
call for the same URL issues a new network request — the failure was not
cached and the claimed short-circuit does not happen. -/
theorem c2_counterexample :
    (checkImage netFail [] urlA).1 = [] ∧
    (checkImage netFail [] urlA).2.2 = true ∧
    (checkImage netFail (checkImage netFail [] urlA).1 urlA).2.2 = true :=
  ⟨rfl, rfl, rfl⟩

/-- Claim C2 as amended: `DataManager.checkImage` rethrows a failure and
caches nothing, so an identical second call issues another network
request; the synthesized failure object of `processImage` carries neither
a `detections` nor a `masks` field; only the `background.js` listener
caches its failure response (with `masks: []`) and serves the second call
from the cache without a new request. -/
theorem c2_amended (net : NetOracle) (cache : Cache) (url e : String)
    (h1 : cacheGet cache url = none) (h2 : net url = Except.error e) :
    checkImage net cache url = (cache, Except.error e, true) ∧
    checkImage net (checkImage net cache url).1 url
      = (cache, Except.error e, true) ∧
    (failureResult e).detections = none ∧
    (failureResult e).masks = none ∧
    backgroundCheckImage net cache url =
      (cacheSet cache url (backgroundFailure e), backgroundFailure e, true) ∧
    backgroundCheckImage net (backgroundCheckImage net cache url).1 url =
      ((backgroundCheckImage net cache url).1, backgroundFailure e, false) := by
  have hc : checkImage net cache url = (cache, Except.error e, true) := by
    simp [checkImage, h1, h2]
  have hb : backgroundCheckImage net cache url =
      (cacheSet cache url (backgroundFailure e), backgroundFailure e, true) := by
    simp [backgroundCheckImage, h1, h2]
  refine ⟨hc, ?_, rfl, rfl, hb, ?_⟩
  · rw [hc]
    exact hc
  · rw [hb]
    simp [backgroundCheckImage, cacheGet_cacheSet_self]

/-- Witness for `c2_amended` against the always-failing backend. -/
theorem c2_witness :
    cacheGet ([] : Cache) urlA = none ∧
    netFail urlA = Except.error httpFailMsg ∧
    checkImage netFail [] urlA = ([], Except.error httpFailMsg, true) :=
  ⟨rfl, rfl, (c2_amended netFail [] urlA httpFailMsg rfl rfl).1⟩

/-! ## Claim C3 — idempotent overlay binding -/

/-- Claim C3, refuted at a concrete input.  The claim states that a second
resolution for an attached element removes the existing overlay and
replaces it.  The second-generation `OverlayManager.createOverlay` instead
returns with the state unchanged: after two calls for `imgOne` the bound
overlay is still the one created by the first call (`oid 0`) — the second
call skips, it does not replace. -/
theorem c3_counterexample :
    createOverlayB mgr0 imgOne okDetsResult = Except.ok bFirst ∧
    createOverlayB bFirst imgOne okDetsResult = Except.ok bFirst ∧
    mapGet bFirst.overlays 1 = some 0 :=
  ⟨rfl, rfl, rfl⟩

/-- Claim C3 as amended: both managers keep at most one overlay per
attached element, but by different policies — `createOrUpdateOverlay`
removes the old overlay and binds a fresh one on every call, while the
second-generation `createOverlay` leaves the state untouched whenever a
binding already exists. -/
theorem c3_amended :
    (∀ (s : ManagerState) (el : ImgElement) (data : LookupResult)
       (c : AncestorInfo),
       containerInfoA el = some c → consistentAt s el.id →
       mapGet (createOrUpdateOverlay s el data).overlays el.id
         = some s.nextOid ∧
       mapGet (createOrUpdateOverlay (createOrUpdateOverlay s el data) el
           data).overlays el.id = some (s.nextOid + 1) ∧
       (domFor (createOrUpdateOverlay (createOrUpdateOverlay s el data) el
           data) el.id).length = 1) ∧
    (∀ (s : ManagerState) (el : ImgElement) (data : LookupResult),
       (mapGet s.overlays el.id).isSome = true →
       createOverlayB s el data = Except.ok s) := by
  constructor
  · intro s el data c hc h
    obtain ⟨k1, _, k3, k4⟩ := createOrUpdateOverlay_spec s el data c hc h
    obtain ⟨k1', k2', _, _⟩ :=
      createOrUpdateOverlay_spec (createOrUpdateOverlay s el data) el data c
        hc k4
    refine ⟨k1, ?_, ?_⟩
    · rw [k1', k3]
    · have := congrArg List.length k2'
      simpa using this
  · intro s el data h
    simp [createOverlayB, h]

/-- Witness for `c3_amended` on the concrete fixtures. -/
theorem c3_witness :
    containerInfoA imgOne = some ancDiv10 ∧ consistentAt mgr0 imgOne.id ∧
    mapGet (createOrUpdateOverlay mgr0 imgOne okMasksResult).overlays
      imgOne.id = some 0 ∧
    (mapGet mgrBound.overlays imgOne.id).isSome = true ∧
    createOverlayB mgrBound imgOne okDetsResult = Except.ok mgrBound := by
  have hcons : consistentAt mgr0 imgOne.id := by
    show domFor mgr0 imgOne.id = []
    rfl
  exact ⟨rfl, hcons,
    (c3_amended.1 mgr0 imgOne okMasksResult ancDiv10 rfl hcons).1,
    rfl, c3_amended.2 mgrBound imgOne okDetsResult rfl⟩

/-! ## Claim C4 — removal purges state, late responses discarded -/

/-- Claim C4, refuted at a concrete input.  The claim states that after a
removal is processed, zero overlays and zero bindings reference the
element even when an in-flight response arrives later, because the
manager checks current bindings and no-ops.  Replaying the race
(`c4run`): `imgOne` is removed inside a subtree (its detached parent
`div` survives as `parentElement`), the cleanup runs, and then the stale
response arrives — `createOrUpdateOverlay` checks only the container, so
it re-creates an overlay and a binding for the removed element. -/
theorem c4_counterexample :
    mapGet c4run.mgr.overlays 1 = some 0 ∧
    (domFor c4run.mgr 1).length = 1 :=
  ⟨by decide, by decide⟩

/-- Claim C4 as amended: removal handling itself purges every binding and
overlay of the element, and a late resolution is discarded only when the
element has no positioning container (no `figure` ancestor and a `null`
`parentElement`, i.e. it was removed directly); an element detached
inside a removed subtree keeps its parent, and a late response then
re-creates overlay state. -/
theorem c4_amended :
    (∀ (s : ManagerState) (e : Nat), consistentAt s e →
       mapGet (cleanupImage s e).overlays e = none ∧
       domFor (cleanupImage s e) e = []) ∧
    (∀ (s : ManagerState) (el : ImgElement) (data : LookupResult),
       containerInfoA el = none → createOrUpdateOverlay s el data = s) := by
  constructor
  · exact fun s e h => cleanupImage_purges s e h
  · intro s el data h
    simp [createOrUpdateOverlay, h]

/-- Witness for `c4_amended` on the concrete fixtures. -/
theorem c4_witness :
    consistentAt mgrBound 1 ∧
    (mapGet (cleanupImage mgrBound 1).overlays 1 = none ∧
     domFor (cleanupImage mgrBound 1) 1 = []) ∧
    containerInfoA imgDetached = none ∧
    createOrUpdateOverlay mgr0 imgDetached okMasksResult = mgr0 := by
  have hcons : consistentAt mgrBound 1 := by
    show (domFor mgrBound 1).map (·.oid) = [0]
    rfl
  exact ⟨hcons, c4_amended.1 mgrBound 1 hcons, rfl,
    c4_amended.2 mgr0 imgDetached okMasksResult rfl⟩

/-! ## Claim C5 — synchronous removal handling -/

/-- Claim C5, refuted at a concrete input.  The claim states that removal
handling is synchronous in the change-observation reaction for both
observers.  The second-generation `OverlayManager` observer defers *all*
records — removals included — to its 500 ms debounced timeout: after its
callback runs for a removal of the bound `imgOne`, the binding and the
overlay are still present, and a subsequent callback replaces the stored
records, dropping the removal entirely. -/
theorem c5_counterexample :
    (observeB bengineBound [removalOfOne]).mgr = bengineBound.mgr ∧
    mapGet (observeB bengineBound [removalOfOne]).mgr.overlays 1 = some 0 ∧
    (observeB (observeB bengineBound [removalOfOne]) [attrOnTwo]).storedMutations
      = some [attrOnTwo] :=
  ⟨rfl, rfl, rfl⟩

/-- Claim C5 as amended: the `ProductOverlayManager` observer detaches a
removed image's overlay and discards its binding synchronously inside the
reaction, without starting the debounce timer; the second-generation
`OverlayManager` observer performs no synchronous work at all and handles
removals only at its debounced timeout. -/
theorem c5_amended :
    (∀ (s : EngineState) (el : ImgElement),
       observeA s [MutationRecord.childList [] [DomNode.img el]] =
         { s with mgr := cleanupImage s.mgr el.id }) ∧
    (∀ (sB : EngineStateB) (muts : List MutationRecord),
       (observeB sB muts).mgr = sB.mgr) := by
  exact ⟨fun s el => rfl, fun sB muts => rfl⟩

/-! ## Claim C6 — minimum-size gating -/

/-- Claim C6, refuted at a concrete input.  The claim states that an image
whose rendered box is below the 256-pixel floor never receives an
overlay.  The `ProductOverlayManager` pipeline has no size check at all:
replaying a successful lookup for the 100×100 `imgSmall` (`c6run`) ends
with an overlay attached for it. -/
theorem c6_counterexample :
    min imgSmall.rectW imgSmall.rectH < 256 ∧
    (domFor c6run.mgr 3).length = 1 :=
  ⟨by decide, by decide⟩

/-- Claim C6 as amended: only the second-generation
`OverlayManager.isValidImage` enforces the 256-pixel floor — its
`processImage` is a no-op for any element with a rendered dimension below
256 — while `ProductOverlayManager.isValidImage` consults only the `src`
and is blind to the rendered box. -/
theorem c6_amended :
    (∀ (sB : EngineStateB) (el : ImgElement),
       min el.rectW el.rectH < 256 → processImageStepB sB el = sB) ∧
    (∀ (el : ImgElement) (w h w2 h2 : ℚ),
       isValidImage { el with rectW := w, rectH := h } =
         isValidImage { el with rectW := w2, rectH := h2 }) := by
  constructor
  · intro sB el h
    have hle : ¬ (256 ≤ min el.rectW el.rectH) := not_le.mpr h
    simp [processImageStepB, isValidImageSized, hle]
  · intro el w h w2 h2
    rfl

/-- Witness for `c6_amended` at the 100×100 fixture. -/
theorem c6_witness :
    min imgSmall.rectW imgSmall.rectH < 256 ∧
    processImageStepB bengine0 imgSmall = bengine0 :=
  ⟨by decide, c6_amended.1 bengine0 imgSmall (by decide)⟩

/-! ## Claim C7 — coordinate mapping -/

/-- Claim C7, refuted at a concrete input.  The claim states that link
positions are always `point.x * 100%` / `point.y * 100%` and never divide
by a pixel size.  The `createProductLink` inlined in
`browser-extension/src/js/content.js` divides the point by the
container's `getBoundingClientRect()` box: for the point `(1/2, 1/4)` in
an 800×600 container it yields `(1/16 %, 1/24 %)` instead of
`(50 %, 25 %)`, and that is exactly what the `ProductOverlayManager`
overlay for `imgOne` renders. -/
theorem c7_counterexample :
    inlineLinkPos ⟨1/2, 1/4⟩ 800 600 = ((1/16 : ℚ), (1/24 : ℚ)) ∧
    inlineLinkPos ⟨1/2, 1/4⟩ 800 600 ≠ ((50 : ℚ), (25 : ℚ)) ∧
    (createOrUpdateOverlay mgr0 imgOne okMasksResult).dom.map (·.links)
      = [[((1/16 : ℚ), (1/24 : ℚ))]] := by
  refine ⟨?_, ?_, ?_⟩
  · simp [inlineLinkPos]
    norm_num
  · simp [inlineLinkPos]
    norm_num
  · simp [createOrUpdateOverlay, containerInfoA, closestFigureInfo,
      parentInfo, imgOne, ancDiv10, cleanupImage, mgr0, mapGet,
      overlayLinksA, okMasksResult, maskMid, inlineLinkPos, mapSet]
    norm_num

/-- Claim C7 as amended: in the detections pipeline (the standalone
`uiComponents.js` renderer used by the second-generation manager) every
product link of a created overlay is positioned at
`point.x * 100%` / `point.y * 100%`, independent of the image's or
container's pixel dimensions; the inlined legacy renderer divides by the
container box instead. -/
theorem c7_amended (s : ManagerState) (el : ImgElement) (data : LookupResult)
    (dets : List Detection) (c : AncestorInfo) (s2 : ManagerState)
    (h1 : mapGet s.overlays el.id = none) (h2 : containerInfoB el = some c)
    (h3 : data.detections = some dets)
    (h4 : createOverlayB s el data = Except.ok s2) :
    s2.dom.map (·.links) =
      s.dom.map (·.links) ++
        [dets.map (fun d => (d.point.x * 100, d.point.y * 100))] := by
  simp only [createOverlayB, h1, h2, h3, Option.isSome_none,
    Bool.false_eq_true, if_false] at h4
  injection h4 with h5
  rw [← h5]
  simp [createProductLinkPos]

/-- Witness for `c7_amended` on the concrete fixtures. -/
theorem c7_witness :
    mapGet mgr0.overlays imgOne.id = none ∧
    containerInfoB imgOne = some ancDiv10 ∧
    okDetsResult.detections = some [detMid] ∧
    createOverlayB mgr0 imgOne okDetsResult = Except.ok bFirst ∧
    bFirst.dom.map (·.links) =
      mgr0.dom.map (·.links) ++
        [[detMid].map (fun d => (d.point.x * 100, d.point.y * 100))] :=
  ⟨rfl, rfl, rfl, rfl,
    c7_amended mgr0 imgOne okDetsResult [detMid] ancDiv10 bFirst rfl rfl rfl
      rfl⟩

/-! ## Claim C8 — debounce coalescing -/

/-- Claim C8, refuted at a concrete input.  The claim states that all
candidates of a burst accumulate in the pending set and none is processed
before the flush.  An image nested inside an added element subtree is
processed immediately by the side effect in `isImageNode`: one callback
adding a `div` around `imgOne` issues its lookup request at once, leaves
the pending set empty and does not even start the debounce timer. -/
theorem c8_counterexample :
    c8run.requestLog = [urlA] ∧ c8run.pending = [] ∧ c8run.timer = none :=
  ⟨by decide, by decide, by decide⟩

/-- Claim C8 as amended: for a burst of directly-added `IMG` nodes the
scheduler behaves as claimed — nothing is processed before the flush, the
candidates accumulate in one pending set (each at most once), exactly one
timeout survives the burst, its flush processes the entire pending set in
one pass and clears it, and a second flush is a no-op; images nested in
added subtrees bypass this batching entirely. -/
theorem c8_amended (s : EngineState) (batches : List (List ImgElement))
    (h : ∃ b ∈ batches, b ≠ []) :
    (burstA s batches).mgr = s.mgr ∧
    (burstA s batches).cache = s.cache ∧
    (burstA s batches).requestLog = s.requestLog ∧
    (burstA s batches).processingUrls = s.processingUrls ∧
    (burstA s batches).pendingReqs = s.pendingReqs ∧
    (burstA s batches).pending =
      batches.foldl (fun p b => b.foldl setInsert p) s.pending ∧
    (∃ g, (burstA s batches).timer = some g) ∧
    flushA (burstA s batches) =
      { (burstA s batches).pending.foldl processImageStep
          { burstA s batches with timer := none } with pending := [] } ∧
    (flushA (burstA s batches)).pending = [] ∧
    flushA (flushA (burstA s batches)) = flushA (burstA s batches) := by
  obtain ⟨m1, m2, m3, m4, m5, m6⟩ := burst_spec batches s
  obtain ⟨g, hg⟩ := burst_timer batches s h
  have hflush : flushA (burstA s batches) =
      { (burstA s batches).pending.foldl processImageStep
          { burstA s batches with timer := none } with pending := [] } := by
    unfold flushA
    rw [hg]
  refine ⟨m1, m2, m3, m4, m5, m6, ⟨g, hg⟩, hflush, ?_, flushA_idem _⟩
  rw [hflush]

/-- Witness for `c8_amended` on a two-callback burst. -/
theorem c8_witness :
    (∃ b ∈ burstBatches, b ≠ []) ∧
    (burstA engine0 burstBatches).requestLog = engine0.requestLog ∧
    (burstA engine0 burstBatches).pending =
      burstBatches.foldl (fun p b => b.foldl setInsert p) engine0.pending ∧
    (flushA (burstA engine0 burstBatches)).pending = [] := by
  have hne : ∃ b ∈ burstBatches, b ≠ [] := ⟨[imgOne], by decide, by decide⟩
  obtain ⟨_, _, m3, _, _, m6, _, _, m9, _⟩ := c8_amended engine0 burstBatches hne
  exact ⟨hne, m3, m6, m9⟩

/-! ## Claim C9 — empty detections and the synthesized failure result -/

/-- Claim C9.  For results that do carry a `detections` field the claim
matches the code (`bEmpty` gets the `no-products` marker and no links,
`bFirst` gets one link per detection and no marker), but the synthesized
failure result the claim includes has *no* `detections` field at all:
`createOverlay` reads `data.detections.length` of `undefined`, throws,
and no overlay is created for a failed lookup — the failure path the
error-handling design describes can never succeed. -/
theorem c9_code_bug :
    createOverlayB mgr0 imgOne (failureResult httpFailMsg)
      = Except.error detectionsUndefined ∧
    (failureResult httpFailMsg).detections = none ∧
    bEmpty.dom.map (·.noProducts) = [true] ∧
    bEmpty.dom.map (fun o => o.links.length) = [0] ∧
    bFirst.dom.map (·.noProducts) = [false] ∧
    bFirst.dom.map (fun o => o.links.length) = [1] :=
  ⟨rfl, rfl, rfl, rfl, rfl, rfl⟩

/-! ## Claim C10 — data URIs and missing sources are skipped -/

/-- Claim C10, confirmed.  For an image element whose `src` is absent,
empty, or a `data:` URI, `processImage` of both pipelines returns before
touching any state: no request is issued, nothing is cached, no overlay
is ever created. -/
theorem c10_confirmed (s : EngineState) (sB : EngineStateB) (el : ImgElement)
    (h : el.src = none ∨ el.src = some "" ∨
         strStartsWith (srcProp el.src) dataPrefix = true) :
    processImageStep s el = s ∧ processImageStepB sB el = sB := by
  have hv : isValidImage el = false := by
    rcases h with h | h | h
    · rw [isValidImage, h]
      decide
    · rw [isValidImage, h]
      decide
    · simp [isValidImage, h]
  constructor
  · simp [processImageStep, hv]
  · simp [processImageStepB, isValidImageSized, hv]

/-- Witness for `c10_confirmed` at the src-less fixture. -/
theorem c10_witness :
    (imgNoSrc.src = none ∨ imgNoSrc.src = some "" ∨
     strStartsWith (srcProp imgNoSrc.src) dataPrefix = true) ∧
    processImageStep engine0 imgNoSrc = engine0 ∧
    processImageStepB bengine0 imgNoSrc = bengine0 := by
  have h : imgNoSrc.src = none ∨ imgNoSrc.src = some "" ∨
      strStartsWith (srcProp imgNoSrc.src) dataPrefix = true := Or.inl rfl
  obtain ⟨a, b⟩ := c10_confirmed engine0 bengine0 imgNoSrc h
  exact ⟨h, a, b⟩

end Iris
